import Mathlib

/-!
Shallow embedding of the episode-cache and offset-reconciliation layer of the
overcast-sonos service (src/overcast.py and src/overcast-sonos.py).

Remote I/O is represented by oracle inputs: a fetched episode page is an
`EpisodePage` value (the fields the scraper reads off the document), and the
remote writes performed by `update_episode_offset` / `delete_episode` are
returned as a list of `RemoteAction` values instead of being posted.
-/

set_option autoImplicit false
set_option linter.unusedVariables false

/-- Episode detail record, mirroring the dict built in
`Overcast.get_episode_detail` (src/overcast.py lines 70-82). -/
structure Episode where
  id : String
  title : String
  podcast_title : String
  offsetMillis : Int
  duration : Int
  data_item_id : String
  data_sync_version : String
  albumArtURI : String
  parsed_audio_uri : String
  audio_type : String
  delete_episode_uri : String
deriving DecidableEq, Repr

/-- Attributes read from the `audio#audioplayer` element. -/
structure AudioPlayerEl where
  data_start_time : Int
  data_item_id : String
  data_sync_version : String
deriving DecidableEq, Repr

/-- Fields the scraper extracts from one episode detail page.  `audioplayer`
is the (possibly empty) selector result for `audio#audioplayer`;
`time_remaining_seconds` is the value returned by
`get_episode_time_remaining_seconds` (`none` models Python `None`, `-1`
models the parser's unknown sentinel). -/
structure EpisodePage where
  audioplayer : List AudioPlayerEl
  title : String
  podcast_title : String
  time_remaining_seconds : Option Int
  albumArtURI : String
  source_src : String
  source_type : String
  delete_href : String
deriving DecidableEq, Repr

/-- Python `str.lstrip` with a slash argument: drop every leading slash. -/
def lstripSlash (s : String) : String :=
  ⟨s.data.dropWhile (fun c => c == '/')⟩

/-- Result of `urllib.parse.urljoin` with the fixed base, for the relative
episode and podcast paths this service passes in. -/
def urljoin_overcast (path : String) : String :=
  "https://overcast.fm/" ++ lstripSlash path

/-- Test whether the second character list occurs at the head of the first. -/
def startsWithChars : List Char → List Char → Bool
  | _, [] => true
  | [], _ :: _ => false
  | a :: as, b :: bs => a == b && startsWithChars as bs

/-- Test whether the second character list occurs anywhere inside the first. -/
def hasSubChars : List Char → List Char → Bool
  | [], sub => startsWithChars [] sub
  | a :: t, sub => startsWithChars (a :: t) sub || hasSubChars t sub

/-- Python substring membership test `sub in s`. -/
def containsSub (s sub : String) : Bool :=
  hasSubChars s.data sub.data

/-- Duration computation of src/overcast.py lines 57-67. -/
def computeDuration (title : String) (time_elapsed_seconds : Int)
    (time_remaining_seconds : Option Int) : Int :=
  match time_remaining_seconds with
  | some tr =>
    if tr != 0 && tr != -1 then
      let duration := time_elapsed_seconds + tr
      if time_elapsed_seconds == duration then -1 else duration
    else
      if containsSub title "Scorchin’ Radio" then 3600 else -1
  | none =>
    if containsSub title "Scorchin’ Radio" then 3600 else -1

/-- Parse of one episode page (src/overcast.py lines 51-82): `none` when the
page has no `audio#audioplayer` element. -/
def parseEpisode (episode_href : String) (page : EpisodePage) : Option Episode :=
  match page.audioplayer with
  | [] => none
  | ap :: _ =>
    let time_elapsed_seconds := ap.data_start_time
    let duration := computeDuration page.title time_elapsed_seconds page.time_remaining_seconds
    some {
      id := lstripSlash episode_href,
      title := page.title,
      podcast_title := page.podcast_title,
      offsetMillis := time_elapsed_seconds * 1000,
      duration := duration,
      data_item_id := ap.data_item_id,
      data_sync_version := ap.data_sync_version,
      albumArtURI := page.albumArtURI,
      parsed_audio_uri := page.source_src,
      audio_type := page.source_type,
      delete_episode_uri := page.delete_href }

/-- The episode cache, an `OrderedDict` keyed by episode id: least recently
used at the front, most recently used at the back. -/
abbrev Cache := List (String × Episode)

/-- Python `key in ordered_dict`. -/
def cacheMem (c : Cache) (k : String) : Bool :=
  c.any (fun p => p.1 == k)

/-- Python `ordered_dict.pop(key)`: the removed value (if any) and the rest. -/
def cachePop : Cache → String → Option Episode × Cache
  | [], _ => (none, [])
  | (k', e) :: t, k =>
    if k' == k then (some e, t)
    else
      let r := cachePop t k
      (r.1, (k', e) :: r.2)

/-- Python `ordered_dict[key]` lookup without removal. -/
def cacheLookup : Cache → String → Option Episode
  | [], _ => none
  | (k', e) :: t, k => if k' == k then some e else cacheLookup t k

/-- Python `ordered_dict[key] = value`: replace in place when present,
append at the most-recently-used end otherwise. -/
def odSet (c : Cache) (k : String) (e : Episode) : Cache :=
  if cacheMem c k then c.map (fun p => if p.1 == k then (k, e) else p)
  else c ++ [(k, e)]

/-- EPISODE_CACHE_SIZE constant of src/overcast.py. -/
def EPISODE_CACHE_SIZE : Nat := 5

/-- The purge loop of src/overcast.py lines 89-91: `popitem(last=False)`
while the cache is over capacity. -/
def evict : Cache → Cache
  | [] => []
  | p :: t =>
    if (p :: t).length > EPISODE_CACHE_SIZE then evict t else p :: t

/-- Result of `get_episode_detail`: the returned episode (or `None`) together
with the cache state after the call. -/
structure GetResult where
  episode : Option Episode
  cache : Cache
deriving DecidableEq, Repr

/-- Overcast.get_episode_detail (src/overcast.py lines 32-93).  The remote
fetch of the episode page is the oracle argument `page`; passing
`updated_offset_millis = -1` models omitting the optional argument. -/
def get_episode_detail (c : Cache) (episode_id : String)
    (updated_offset_millis : Int) (page : EpisodePage) : GetResult :=
  let popped := cachePop c episode_id
  let episode0 : Option Episode :=
    if cacheMem c episode_id then
      match popped.1 with
      | some episode =>
        if updated_offset_millis == -1 || episode.duration == -1 then none
        else if updated_offset_millis > -1 then
          some { episode with offsetMillis := updated_offset_millis }
        else some episode
      | none => none
    else none
  let c1 := if cacheMem c episode_id then popped.2 else c
  let episode1 :=
    match episode0 with
    | some e => some e
    | none => parseEpisode (urljoin_overcast episode_id) page
  match episode1 with
  | some e => { episode := some e, cache := evict (odSet c1 episode_id e) }
  | none => { episode := none, cache := c1 }

/-- One remote POST performed by the reconciliation layer. -/
inductive RemoteAction where
  | post_progress (url : String) (p : ℚ) (speed : Int) (v : String)
  | post_delete (url : String)
deriving DecidableEq, Repr

/-- Overcast.delete_episode (src/overcast.py lines 185-188), as the remote
write it performs. -/
def delete_episode (episode : Episode) : List RemoteAction :=
  [RemoteAction.post_delete ("https://overcast.fm" ++ episode.delete_episode_uri)]

/-- Overcast.update_episode_offset (src/overcast.py lines 174-183), as the
ordered list of remote writes it performs.  The offset arrives as
`offsetMillis / 1000`, a true division, hence a rational. -/
def update_episode_offset (episode : Episode) (updated_offset_seconds : ℚ) :
    List RemoteAction :=
  let url := "https://overcast.fm/podcasts/set_progress/" ++ episode.data_item_id
  let report := RemoteAction.post_progress url updated_offset_seconds 0 episode.data_sync_version
  if updated_offset_seconds ≥ (episode.duration : ℚ) - 60 then
    report :: delete_episode episode
  else [report]

/-- Test for whether a list of remote writes contains a delete. -/
def issues_delete (acts : List RemoteAction) : Bool :=
  acts.any (fun a => match a with
    | RemoteAction.post_delete _ => true
    | _ => false)

/-- UNPLAYED_EPISODE_PREFIX constant of src/overcast.py. -/
def UNPLAYED_EPISODE_PREFIX : String := "* "

/-- One `a.extendedepisodecell` element of a podcast page: its optional
`href` attribute, the whitespace-split `class` attribute, and the text of the
title and caption sub-elements the scraper reads. -/
structure EpisodeCell where
  href : Option String
  classes : List String
  title : String
  caption : String
deriving DecidableEq, Repr

/-- Fields the scraper extracts from a podcast page. -/
structure PodcastPage where
  art_src : String
  podcast_title : String
  cells : List EpisodeCell
deriving DecidableEq, Repr

/-- Episode summary record built by `get_all_podcast_episodes`
(src/overcast.py lines 157-165). -/
structure EpisodeSummary where
  id : String
  title : String
  audio_type : String
  podcast_title : String
  albumArtURI : String
  summary : String
  releasedate : String
deriving DecidableEq, Repr

/-- Python `str.strip()`: drop leading and trailing whitespace. -/
def pyStrip (s : String) : String :=
  ⟨((s.data.dropWhile Char.isWhitespace).reverse.dropWhile Char.isWhitespace).reverse⟩

/-- Python `text.strip()` followed by removal of every newline, as applied to
scraped cell text. -/
def strip_clean (s : String) : String :=
  ⟨(pyStrip s).data.filter (fun c => !(c == '\n'))⟩

/-- Episode summary built from one cell (src/overcast.py lines 153-165).
`convert_release_date` comes from the utilities module, which is not part of
the scraped page logic; it is passed in as a function. -/
def episodeFromCell (page : PodcastPage) (convert_release_date : String → String)
    (episode_pfx : String) (href : String) (cell : EpisodeCell) : EpisodeSummary :=
  let summary := strip_clean cell.caption
  { id := lstripSlash (urljoin_overcast href),
    title := episode_pfx ++ strip_clean cell.title,
    audio_type := "audio/mpeg",
    podcast_title := page.podcast_title,
    albumArtURI := page.art_src,
    summary := summary,
    releasedate := convert_release_date summary }

/-- The for-loop of `get_all_podcast_episodes` (src/overcast.py lines
144-171), threading the `episodes` list through the iterations. -/
def episodes_loop (page : PodcastPage) (unplayed_only : Bool)
    (convert_release_date : String → String) :
    List EpisodeCell → List EpisodeSummary → List EpisodeSummary
  | [], episodes => episodes
  | cell :: rest, episodes =>
    let episodes1 :=
      match cell.href with
      | none => episodes
      | some href =>
        let episode_pfx :=
          if cell.classes.contains "usernewepisode" then UNPLAYED_EPISODE_PREFIX else ""
        if !unplayed_only || (unplayed_only && episode_pfx != "") then
          let episode := episodeFromCell page convert_release_date episode_pfx href cell
          if unplayed_only then episode :: episodes else episodes ++ [episode]
        else episodes
    episodes_loop page unplayed_only convert_release_date rest episodes1

/-- Overcast.get_all_podcast_episodes (src/overcast.py lines 134-172).  The
remote fetch of the podcast page is the oracle argument `page`. -/
def get_all_podcast_episodes (page : PodcastPage) (unplayed_only : Bool)
    (convert_release_date : String → String) : List EpisodeSummary :=
  episodes_loop page unplayed_only convert_release_date page.cells []

/-- REPORT_PLAY_SECONDS_INTERVAL constant of src/overcast-sonos.py. -/
def REPORT_PLAY_SECONDS_INTERVAL : Int := 30

/-- Python `id.rsplit(slash, 1)[-1]`: the part after the last slash, or the
whole string when there is none. -/
def rsplit_last (s : String) : String :=
  ⟨(s.data.reverse.takeWhile (fun c => !(c == '/'))).reverse⟩

/-- Outcome of a SOAP handler: `Except.error` models an uncaught Python
exception escaping the handler. -/
abbrev HandlerResult (α : Type) := Except String (Cache × List RemoteAction × α)

/-- The subscript access `episode[...]` performed on the result of
`get_episode_detail`: raises a TypeError when the episode is `None`. -/
def NONE_SUBSCRIPT_ERROR : String := "TypeError: NoneType object is not subscriptable"

/-- reportPlaySeconds handler (src/overcast-sonos.py lines 286-291): looks up
the episode (patching the cached offset), then reports `offsetMillis / 1000`
seconds to the reconciliation layer.  A `None` episode is dereferenced by
`update_episode_offset`, raising. -/
def reportPlaySeconds (c : Cache) (id : String) (seconds : Int)
    (offsetMillis : Int) (contextId : String) (page : EpisodePage) :
    HandlerResult Int :=
  let episode_id := rsplit_last id
  let r := get_episode_detail c episode_id offsetMillis page
  match r.episode with
  | none => Except.error NONE_SUBSCRIPT_ERROR
  | some e =>
    Except.ok (r.cache, update_episode_offset e ((offsetMillis : ℚ) / 1000),
      REPORT_PLAY_SECONDS_INTERVAL)

/-- reportPlayStatus handler (src/overcast-sonos.py lines 301-305). -/
def reportPlayStatus (c : Cache) (id : String) (status : String)
    (offsetMillis : Int) (contextId : String) (page : EpisodePage) :
    HandlerResult Unit :=
  let episode_id := rsplit_last id
  let r := get_episode_detail c episode_id offsetMillis page
  match r.episode with
  | none => Except.error NONE_SUBSCRIPT_ERROR
  | some e =>
    Except.ok (r.cache, update_episode_offset e ((offsetMillis : ℚ) / 1000), ())

/-- setPlayedSeconds handler (src/overcast-sonos.py lines 315-319). -/
def setPlayedSeconds (c : Cache) (id : String) (seconds : Int)
    (offsetMillis : Int) (contextId : String) (page : EpisodePage) :
    HandlerResult Unit :=
  let episode_id := rsplit_last id
  let r := get_episode_detail c episode_id offsetMillis page
  match r.episode with
  | none => Except.error NONE_SUBSCRIPT_ERROR
  | some e =>
    Except.ok (r.cache, update_episode_offset e ((offsetMillis : ℚ) / 1000), ())

/-- positionInformation record returned by getMediaURI. -/
structure PositionInformation where
  id : String
  index : Int
  offsetMillis : Int
deriving DecidableEq, Repr

/-- Response of the getMediaURI handler. -/
structure MediaURIResult where
  getMediaURIResult : String
  positionInformation : PositionInformation
deriving DecidableEq, Repr

/-- getMediaURI handler (src/overcast-sonos.py lines 246-260): fetches the
episode detail without an offset and dereferences the result.
`final_redirect_url` (utilities module, network redirect resolution) is
passed in as a function. -/
def getMediaURI (c : Cache) (id : String) (page : EpisodePage)
    (final_redirect_url : String → String) :
    Except String (Cache × MediaURIResult) :=
  let episode_id := rsplit_last id
  let r := get_episode_detail c episode_id (-1) page
  match r.episode with
  | none => Except.error NONE_SUBSCRIPT_ERROR
  | some e =>
    Except.ok (r.cache,
      { getMediaURIResult := final_redirect_url e.parsed_audio_uri,
        positionInformation :=
          { id := "episodes/" ++ e.id, index := 0, offsetMillis := e.offsetMillis } })

/-- Well-formedness of an `OrderedDict`: its keys are pairwise distinct. -/
abbrev keysNodup (c : Cache) : Prop := (c.map Prod.fst).Nodup

/-- Cells filtered and transformed the way the `unplayed_only = true` run of
`get_all_podcast_episodes` does per cell: kept exactly when an `href` is
present and the cell carries the `usernewepisode` class. -/
def unplayed_cell_episode (page : PodcastPage) (convert_release_date : String → String)
    (cell : EpisodeCell) : Option EpisodeSummary :=
  match cell.href with
  | none => none
  | some href =>
    if cell.classes.contains "usernewepisode" then
      some (episodeFromCell page convert_release_date UNPLAYED_EPISODE_PREFIX href cell)
    else none

/-- Sample episode with a known duration. -/
def epKnown : Episode :=
  { id := "e1", title := "t", podcast_title := "p", offsetMillis := 0,
    duration := 1800, data_item_id := "i", data_sync_version := "v",
    albumArtURI := "a", parsed_audio_uri := "u", audio_type := "audio/mpeg",
    delete_episode_uri := "/d" }

/-- Sample episode whose duration is the unknown sentinel. -/
def epUnknown : Episode := { epKnown with duration := -1 }

/-- Sample fetched page with no `audio#audioplayer` element. -/
def pageNoAudio : EpisodePage :=
  { audioplayer := [], title := "t", podcast_title := "p",
    time_remaining_seconds := none, albumArtURI := "a", source_src := "u",
    source_type := "audio/mpeg", delete_href := "/d" }

/-- Sample well-formed fetched page whose parse has elapsed time 0 and
duration `tr` (for `tr` positive and distinct from the sentinels). -/
def mkPage (i : String) (tr : Int) : EpisodePage :=
  { audioplayer := [⟨0, i, "v"⟩], title := i, podcast_title := "p",
    time_remaining_seconds := some tr, albumArtURI := "a", source_src := "u",
    source_type := "audio/mpeg", delete_href := "/d" }

/-- One cache insertion through `get_episode_detail`, on a miss served by a
fresh page for the given id. -/
def insertStep (c : Cache) (i : String) : Cache :=
  (get_episode_detail c i (-1) (mkPage i 100)).cache

/-- Cache state after inserting capacity + 1 distinct episodes into an empty
cache. -/
def sixInsertCache : Cache :=
  insertStep (insertStep (insertStep (insertStep (insertStep
    (insertStep [] "e1") "e2") "e3") "e4") "e5") "e6"

/-- Played episode cell A of the sample podcast page. -/
def cellA : EpisodeCell := { href := some "/a", classes := [], title := "A", caption := "sA" }

/-- Unplayed episode cell B of the sample podcast page. -/
def cellB : EpisodeCell := { href := some "/b", classes := ["usernewepisode"], title := "B", caption := "sB" }

/-- Unplayed episode cell C of the sample podcast page. -/
def cellC : EpisodeCell := { href := some "/c", classes := ["usernewepisode"], title := "C", caption := "sC" }

/-- Played episode cell D of the sample podcast page. -/
def cellD : EpisodeCell := { href := some "/d", classes := [], title := "D", caption := "sD" }

/-- Sample podcast page with cells in page order A(played), B(unplayed),
C(unplayed), D(played). -/
def samplePodcastPage : PodcastPage :=
  { art_src := "art", podcast_title := "P", cells := [cellA, cellB, cellC, cellD] }

/-- Projection of a handler result onto the resulting cache (empty cache for
an escaped exception). -/
def handlerCache {α : Type} (r : Except String (Cache × List RemoteAction × α)) : Cache :=
  match r with
  | Except.ok (c, _, _) => c
  | Except.error _ => []

/-- Projection of a handler result onto the performed remote writes. -/
def handlerActs {α : Type} (r : Except String (Cache × List RemoteAction × α)) : List RemoteAction :=
  match r with
  | Except.ok (_, acts, _) => acts
  | Except.error _ => []

/-- Sample episode with duration 1800, for the concrete reconciliation
checks. -/
def ep1800 : Episode := { epKnown with duration := 1800 }

/-- The episode that `parseEpisode` produces from `mkPage` applied to id e1
with 100 seconds remaining. -/
def epParsed : Episode :=
  { id := "https://overcast.fm/e1", title := "e1", podcast_title := "p",
    offsetMillis := 0, duration := 100, data_item_id := "e1",
    data_sync_version := "v", albumArtURI := "a", parsed_audio_uri := "u",
    audio_type := "audio/mpeg", delete_episode_uri := "/d" }

theorem evict_length_le (c : Cache) : (evict c).length ≤ EPISODE_CACHE_SIZE := by
  induction c with
  | nil => simp [evict, EPISODE_CACHE_SIZE]
  | cons p t ih =>
    rw [evict]
    split
    · exact ih
    · omega

theorem evict_eq_of_length_le (c : Cache) (h : c.length ≤ EPISODE_CACHE_SIZE) : evict c = c := by
  cases c with
  | nil => rfl
  | cons p t =>
    rw [evict]
    split
    · omega
    · rfl

theorem cachePop_snd_length_le (c : Cache) (k : String) : (cachePop c k).2.length ≤ c.length := by
  induction c with
  | nil => simp [cachePop]
  | cons p t ih =>
    obtain ⟨k', e⟩ := p
    rw [cachePop]
    split
    · simp
    · simpa using ih

theorem cachePop_snd_length_of_mem (c : Cache) (k : String) (h : cacheMem c k = true) :
    (cachePop c k).2.length + 1 = c.length := by
  induction c with
  | nil => simp [cacheMem] at h
  | cons p t ih =>
    obtain ⟨k', e⟩ := p
    rw [cachePop]
    split
    · simp
    · rename_i hne
      simp only [cacheMem, List.any_cons, Bool.or_eq_true] at h
      rcases h with h | h
      · exact absurd h (by simpa using hne)
      · simpa using ih h

theorem cachePop_fst_eq_lookup (c : Cache) (k : String) : (cachePop c k).1 = cacheLookup c k := by
  induction c with
  | nil => rfl
  | cons p t ih =>
    obtain ⟨k', e⟩ := p
    rw [cachePop, cacheLookup]
    split
    · rfl
    · simpa using ih

theorem cacheMem_of_lookup_some (c : Cache) (k : String) (e : Episode)
    (h : cacheLookup c k = some e) : cacheMem c k = true := by
  induction c with
  | nil => simp [cacheLookup] at h
  | cons p t ih =>
    obtain ⟨k', e'⟩ := p
    rw [cacheLookup] at h
    rw [cacheMem, List.any_cons]
    by_cases hk : (k' == k) = true
    · simp [hk]
    · have hkf : (k' == k) = false := by simpa using hk
      rw [if_neg hk] at h
      simp only [hkf, Bool.false_or]
      exact ih h

theorem cacheMem_eq_false_of_not_mem (c : Cache) (k : String)
    (h : k ∉ c.map Prod.fst) : cacheMem c k = false := by
  induction c with
  | nil => rfl
  | cons p t ih =>
    simp only [List.map_cons, List.mem_cons, not_or] at h
    rw [cacheMem, List.any_cons]
    have h1 : (p.1 == k) = false := beq_eq_false_iff_ne.mpr (fun hh => h.1 hh.symm)
    rw [h1, Bool.false_or]
    exact ih h.2

theorem cachePop_snd_not_mem (c : Cache) (k : String) (h : keysNodup c) :
    cacheMem (cachePop c k).2 k = false := by
  induction c with
  | nil => rfl
  | cons p t ih =>
    obtain ⟨k', e⟩ := p
    have h' : k' ∉ List.map Prod.fst t ∧ (List.map Prod.fst t).Nodup := by
      have hh : (k' :: List.map Prod.fst t).Nodup := h
      exact List.nodup_cons.mp hh
    by_cases hk : (k' == k) = true
    · have hkk : k' = k := by simpa using hk
      simp only [cachePop, if_pos hk]
      exact cacheMem_eq_false_of_not_mem t k (hkk ▸ h'.1)
    · have hkf : (k' == k) = false := by simpa using hk
      have ht : cacheMem (cachePop t k).2 k = false := ih h'.2
      simp only [cachePop, hkf, Bool.false_eq_true, if_false]
      simp only [cacheMem, List.any_cons, hkf, Bool.false_or] at ht ⊢
      exact ht

theorem mem_evict_last (l : Cache) (x : String × Episode) : x ∈ evict (l ++ [x]) := by
  induction l with
  | nil => simp [evict, EPISODE_CACHE_SIZE]
  | cons p t ih =>
    rw [List.cons_append, evict]
    split
    · exact ih
    · simp

theorem cacheMem_of_mem (c : Cache) (k : String) (e : Episode)
    (h : (k, e) ∈ c) : cacheMem c k = true := by
  rw [cacheMem, List.any_eq_true]
  exact ⟨(k, e), h, by simp⟩

theorem odSet_eq_append (c : Cache) (k : String) (e : Episode)
    (h : cacheMem c k = false) : odSet c k e = c ++ [(k, e)] := by
  rw [odSet, h]
  simp

theorem get_episode_detail_cases (c : Cache) (k : String) (off : Int) (page : EpisodePage) :
    (∃ e, (get_episode_detail c k off page).episode = some e ∧
      (get_episode_detail c k off page).cache =
        evict (odSet (if cacheMem c k then (cachePop c k).2 else c) k e)) ∨
    ((get_episode_detail c k off page).episode = none ∧
      (get_episode_detail c k off page).cache = (if cacheMem c k then (cachePop c k).2 else c)) := by
  rw [get_episode_detail]
  split
  · rename_i e heq
    exact Or.inl ⟨e, rfl, rfl⟩
  · exact Or.inr ⟨rfl, rfl⟩

theorem get_episode_some_mem (c : Cache) (k : String) (off : Int) (page : EpisodePage)
    (hnd : keysNodup c) (e : Episode)
    (h : (get_episode_detail c k off page).episode = some e) :
    cacheMem (get_episode_detail c k off page).cache k = true := by
  have hc1 : cacheMem (if cacheMem c k then (cachePop c k).2 else c) k = false := by
    split
    · exact cachePop_snd_not_mem c k hnd
    · rename_i hm
      simpa using hm
  rcases get_episode_detail_cases c k off page with ⟨e', he, hc⟩ | ⟨he, hc⟩
  · rw [hc, odSet_eq_append _ _ _ hc1]
    exact cacheMem_of_mem _ _ _ (mem_evict_last _ _)
  · rw [h] at he
    cases he

/-- C1: the spec says an episode whose duration is the unknown sentinel (-1)
must never be auto-deleted by `update_episode_offset`, but the code compares
the reported offset against `duration - 60 = -61`, so already a reported
offset of 0 issues the remote delete. -/
theorem c1_unknown_duration_episode_deleted :
    epUnknown.duration = -1 ∧ issues_delete (update_episode_offset epUnknown 0) = true := by
  refine ⟨rfl, ?_⟩
  rw [update_episode_offset, if_pos (by norm_num [epUnknown, epKnown])]
  rfl

/-- C2 counterexample: a cached episode with unknown duration and a supplied
updated offset is not patched and returned as a hit; the entry is invalidated
and the repository is consulted (here the fetch yields no audio player, so
the call returns absent). -/
theorem c2_counterexample :
    cacheMem [("e1", epUnknown)] "e1" = true ∧ epUnknown.duration = -1 ∧
    (get_episode_detail [("e1", epUnknown)] "e1" 5000 pageNoAudio).episode ≠
      some { epUnknown with offsetMillis := 5000 } ∧
    (get_episode_detail [("e1", epUnknown)] "e1" 5000 pageNoAudio).episode = none := by
  decide

/-- C2 amended: when the cached duration is known (not the sentinel), a call
with a supplied non-negative offset patches `offsetMillis` in the cached
record and returns it as a hit, independent of the fetched page, moving the
entry to the most-recently-used end of the cache. -/
theorem c2_amended_offset_hit_requires_known_duration (c : Cache) (k : String)
    (off : Int) (page : EpisodePage) (e : Episode)
    (hnd : keysNodup c) (hlen : c.length ≤ EPISODE_CACHE_SIZE)
    (hl : cacheLookup c k = some e) (hdur : e.duration ≠ -1) (hoff : 0 ≤ off) :
    get_episode_detail c k off page =
      { episode := some { e with offsetMillis := off },
        cache := (cachePop c k).2 ++ [(k, { e with offsetMillis := off })] } := by
  have hmem : cacheMem c k = true := cacheMem_of_lookup_some c k e hl
  have hfst : (cachePop c k).1 = some e := by
    rw [cachePop_fst_eq_lookup]; exact hl
  have hne1 : (off == -1) = false := by
    rw [beq_eq_false_iff_ne]; omega
  have hd : (e.duration == -1) = false := beq_eq_false_iff_ne.mpr hdur
  have hgt : off > -1 := by omega
  have hpop := cachePop_snd_not_mem c k hnd
  have hlen2 := cachePop_snd_length_of_mem c k hmem
  simp only [get_episode_detail, hmem, hfst, hne1, hd, Bool.or_self, Bool.false_or,
    if_true, if_pos hgt, Bool.false_eq_true, if_false]
  rw [odSet_eq_append _ _ _ hpop, evict_eq_of_length_le]
  rw [List.length_append, List.length_singleton]
  omega

/-- C2 amended claim instantiated: a singleton cache holding a
known-duration episode, offset 5000. -/
theorem c2_amended_offset_hit_requires_known_duration_witness :
    keysNodup [("e1", epKnown)] ∧ ([("e1", epKnown)] : Cache).length ≤ EPISODE_CACHE_SIZE ∧
    cacheLookup [("e1", epKnown)] "e1" = some epKnown ∧ epKnown.duration ≠ -1 ∧ (0 : Int) ≤ 5000 ∧
    get_episode_detail [("e1", epKnown)] "e1" 5000 pageNoAudio =
      { episode := some { epKnown with offsetMillis := 5000 },
        cache := (cachePop [("e1", epKnown)] "e1").2 ++
          [("e1", { epKnown with offsetMillis := 5000 })] } :=
  ⟨by decide, by decide, by decide, by decide, by decide,
    c2_amended_offset_hit_requires_known_duration _ _ _ pageNoAudio _
      (by decide) (by decide) (by decide) (by decide) (by decide)⟩

/-- C3 counterexample: a cached episode with known duration retrieved without
an updated offset is not returned as inserted; the call re-fetches and
returns the freshly parsed record, which differs from the cached one. -/
theorem c3_counterexample :
    epKnown.duration ≠ -1 ∧ cacheLookup [("e1", epKnown)] "e1" = some epKnown ∧
    (get_episode_detail [("e1", epKnown)] "e1" (-1) (mkPage "f" 100)).episode ≠ some epKnown := by
  decide

/-- C3 amended: a retrieval without an updated offset is always treated as a
miss, whatever is cached under the id: the returned episode is exactly the
parse of the freshly fetched page. -/
theorem c3_amended_no_offset_always_refetches (c : Cache) (k : String) (page : EpisodePage) :
    (get_episode_detail c k (-1) page).episode = parseEpisode (urljoin_overcast k) page := by
  cases hmem : cacheMem c k with
  | false =>
    cases hp : parseEpisode (urljoin_overcast k) page <;>
      simp [get_episode_detail, hmem, hp]
  | true =>
    cases hfst : (cachePop c k).1 with
    | none =>
      cases hp : parseEpisode (urljoin_overcast k) page <;>
        simp [get_episode_detail, hmem, hfst, hp]
    | some e =>
      cases hp : parseEpisode (urljoin_overcast k) page <;>
        simp [get_episode_detail, hmem, hfst, hp]

/-- C4: for an episode with known duration, `update_episode_offset` issues
the remote delete exactly when the reported offset in seconds is at least
duration - 60; with duration 1800, offset 1750 triggers the delete and 1700
does not. -/
theorem c4_delete_iff_offset_within_60 (e : Episode) (t : ℚ) (h : e.duration ≠ -1) :
    (issues_delete (update_episode_offset e t) = true ↔ (e.duration : ℚ) - 60 ≤ t)
    ∧ issues_delete (update_episode_offset ep1800 1750) = true
    ∧ issues_delete (update_episode_offset ep1800 1700) = false := by
  refine ⟨?_, ?_, ?_⟩
  · by_cases hge : (e.duration : ℚ) - 60 ≤ t
    · simp [update_episode_offset, ge_iff_le, hge, issues_delete, delete_episode]
    · simp [update_episode_offset, ge_iff_le, hge, issues_delete]
  · rw [update_episode_offset, if_pos (by norm_num [ep1800, epKnown])]
    rfl
  · rw [update_episode_offset, if_neg (by norm_num [ep1800, epKnown])]
    rfl

/-- C4 instantiated at duration 1800 and offset 1750. -/
theorem c4_delete_iff_offset_within_60_witness :
    ep1800.duration ≠ -1 ∧
    ((issues_delete (update_episode_offset ep1800 1750) = true ↔ (ep1800.duration : ℚ) - 60 ≤ 1750)
      ∧ issues_delete (update_episode_offset ep1800 1750) = true
      ∧ issues_delete (update_episode_offset ep1800 1700) = false) :=
  ⟨by decide, c4_delete_iff_offset_within_60 ep1800 1750 (by decide)⟩

/-- C5 counterexample: a progress report that triggers the remote delete
(duration 100, offset 100 seconds, threshold 40) leaves the episode's entry
in the cache; the claim that the cache no longer contains the id is false. -/
theorem c5_counterexample :
    reportPlaySeconds [] "episodes/e1" 0 100000 "ctx" (mkPage "e1" 100) =
      Except.ok ([("e1", epParsed)],
        update_episode_offset epParsed (((100000 : Int) : ℚ) / 1000),
        REPORT_PLAY_SECONDS_INTERVAL) ∧
    issues_delete (update_episode_offset epParsed (((100000 : Int) : ℚ) / 1000)) = true ∧
    cacheMem [("e1", epParsed)] "e1" = true := by
  refine ⟨rfl, ?_, rfl⟩
  rw [update_episode_offset, if_pos (by norm_num [epParsed])]
  rfl

/-- C5 amended: the reconciliation flow never removes the cache entry; after
any successful progress report, delete or no delete, the episode id is still
present in the cache (re-inserted as most recently used by the preceding
detail lookup). -/
theorem c5_amended_delete_leaves_cache_entry (c : Cache) (id : String)
    (seconds offsetMillis : Int) (contextId : String) (page : EpisodePage)
    (out : Cache × List RemoteAction × Int)
    (hnd : keysNodup c)
    (h : reportPlaySeconds c id seconds offsetMillis contextId page = Except.ok out) :
    cacheMem out.1 (rsplit_last id) = true := by
  rw [reportPlaySeconds] at h
  split at h
  · cases h
  · rename_i e he
    cases h
    exact get_episode_some_mem c (rsplit_last id) offsetMillis page hnd e he

/-- C5 amended claim instantiated at the delete-triggering report of the
counterexample. -/
theorem c5_amended_delete_leaves_cache_entry_witness :
    keysNodup ([] : Cache) ∧
    cacheMem [("e1", epParsed)] (rsplit_last "episodes/e1") = true :=
  ⟨by decide,
    c5_amended_delete_leaves_cache_entry [] "episodes/e1" 0 100000 "ctx" (mkPage "e1" 100)
      ([("e1", epParsed)], update_episode_offset epParsed (((100000 : Int) : ℚ) / 1000),
        REPORT_PLAY_SECONDS_INTERVAL) (by decide) rfl⟩

/-- C6: starting from a cache within capacity, every `get_episode_detail`
call leaves at most 5 entries, and inserting 6 distinct episodes into an
empty cache leaves exactly the 5 most recent, the least recently used one
evicted. -/
theorem c6_cache_bounded_and_lru_evicted (c : Cache) (k : String) (off : Int)
    (page : EpisodePage) (h : c.length ≤ EPISODE_CACHE_SIZE) :
    (get_episode_detail c k off page).cache.length ≤ EPISODE_CACHE_SIZE ∧
    sixInsertCache.length = EPISODE_CACHE_SIZE ∧
    sixInsertCache.map Prod.fst = ["e2", "e3", "e4", "e5", "e6"] := by
  refine ⟨?_, by decide, by decide⟩
  rw [get_episode_detail]
  split
  · exact evict_length_le _
  · split
    · exact le_trans (cachePop_snd_length_le c k) h
    · exact h

/-- C6 instantiated at the empty cache. -/
theorem c6_cache_bounded_and_lru_evicted_witness :
    (([] : Cache)).length ≤ EPISODE_CACHE_SIZE ∧
    ((get_episode_detail [] "e1" (-1) (mkPage "e1" 100)).cache.length ≤ EPISODE_CACHE_SIZE ∧
      sixInsertCache.length = EPISODE_CACHE_SIZE ∧
      sixInsertCache.map Prod.fst = ["e2", "e3", "e4", "e5", "e6"]) :=
  ⟨by decide, c6_cache_bounded_and_lru_evicted [] "e1" (-1) (mkPage "e1" 100) (by decide)⟩

/-- C7: for every episode and reported offset, `update_episode_offset`
performs the remote progress-update write, built from the episode's write
tokens, as the first remote action — before any delete decision. -/
theorem c7_progress_report_always_first (e : Episode) (t : ℚ) :
    (update_episode_offset e t).head? =
      some (RemoteAction.post_progress
        ("https://overcast.fm/podcasts/set_progress/" ++ e.data_item_id) t 0
        e.data_sync_version) := by
  rw [update_episode_offset]
  split <;> rfl

/-- C8: when the fetched page has no audio-player element and the cache
holds no usable entry for the id (absent, or cached with unknown duration),
`get_episode_detail` returns absent and the cache afterwards holds no entry
for the id. -/
theorem c8_missing_audioplayer_returns_absent (c : Cache) (k : String) (off : Int)
    (page : EpisodePage) (hnd : keysNodup c) (haudio : page.audioplayer = [])
    (hdur : ∀ e, cacheLookup c k = some e → e.duration = -1) :
    (get_episode_detail c k off page).episode = none ∧
    cacheMem (get_episode_detail c k off page).cache k = false := by
  have hp : parseEpisode (urljoin_overcast k) page = none := by
    rw [parseEpisode, haudio]
  cases hmem : cacheMem c k with
  | false =>
    constructor <;> simp [get_episode_detail, hmem, hp]
  | true =>
    have hpop := cachePop_snd_not_mem c k hnd
    cases hfst : (cachePop c k).1 with
    | none =>
      constructor <;> simp [get_episode_detail, hmem, hfst, hp, hpop]
    | some e =>
      have hd : e.duration = -1 := hdur e (by rw [← cachePop_fst_eq_lookup]; exact hfst)
      have hdb : (e.duration == -1) = true := by simp [hd]
      constructor <;> simp [get_episode_detail, hmem, hfst, hp, hdb, hpop]

/-- C8 instantiated: a previously cached unknown-duration entry is removed
when the fetch finds no audio player. -/
theorem c8_missing_audioplayer_returns_absent_witness :
    keysNodup [("e1", epUnknown)] ∧ pageNoAudio.audioplayer = [] ∧
    (∀ e, cacheLookup [("e1", epUnknown)] "e1" = some e → e.duration = -1) ∧
    ((get_episode_detail [("e1", epUnknown)] "e1" 7 pageNoAudio).episode = none ∧
     cacheMem (get_episode_detail [("e1", epUnknown)] "e1" 7 pageNoAudio).cache "e1" = false) := by
  have hdur : ∀ e, cacheLookup [("e1", epUnknown)] "e1" = some e → e.duration = -1 := by
    intro e he
    have h2 : epUnknown = e := by simpa [cacheLookup] using he
    cases h2
    rfl
  exact ⟨by decide, rfl, hdur,
    c8_missing_audioplayer_returns_absent _ _ _ _ (by decide) rfl hdur⟩

/-- C9 counterexample: on the page [A(played), B(unplayed), C(unplayed),
D(played)] with unplayedOnly true, the result is the two unplayed episodes
[C, B]; it does not contain the played episodes, so it is not the claimed
four-element sequence [C, B, A, D]. -/
theorem c9_counterexample :
    (get_all_podcast_episodes samplePodcastPage true (fun s => s)).map EpisodeSummary.title
      = ["* C", "* B"] ∧
    (get_all_podcast_episodes samplePodcastPage true (fun s => s)).length ≠ 4 :=
  ⟨rfl, by decide⟩

/-- C9 amended: with unplayedOnly true, played episodes are filtered out
entirely, and each unplayed episode with an href is inserted at the front in
encounter order, so the result is the unplayed episodes in reversed relative
page order. -/
theorem c9_amended_unplayed_prepended_reversed (page : PodcastPage)
    (crd : String → String) :
    get_all_podcast_episodes page true crd =
      (page.cells.filterMap (unplayed_cell_episode page crd)).reverse := by
  have key : ∀ (cells : List EpisodeCell) (acc : List EpisodeSummary),
      episodes_loop page true crd cells acc =
        (cells.filterMap (unplayed_cell_episode page crd)).reverse ++ acc := by
    intro cells
    induction cells with
    | nil =>
      intro acc
      simp [episodes_loop]
    | cons cell rest ih =>
      intro acc
      rw [episodes_loop]
      cases hh : cell.href with
      | none =>
        simp [unplayed_cell_episode, hh, ih]
      | some href =>
        have hpne : ¬(UNPLAYED_EPISODE_PREFIX = "") := by decide
        by_cases hc : cell.classes.contains "usernewepisode"
        · have hm : "usernewepisode" ∈ cell.classes := by simpa using hc
          simp [unplayed_cell_episode, hh, hc, hm, hpne, ih]
        · have hm : "usernewepisode" ∉ cell.classes := by simpa using hc
          simp [unplayed_cell_episode, hh, hc, hm, ih]
  rw [get_all_podcast_episodes]
  simpa using key page.cells []

/-- C10: at the service boundary, an episode id whose fetched page lacks the
audio-player element makes reportPlaySeconds, reportPlayStatus,
setPlayedSeconds and getMediaURI dereference the absent episode and raise,
instead of returning a well-formed empty response. -/
theorem c10_handlers_raise_on_absent_episode :
    reportPlaySeconds [] "episodes/e1" 0 1000 "ctx" pageNoAudio = Except.error NONE_SUBSCRIPT_ERROR ∧
    reportPlayStatus [] "episodes/e1" "PAUSED" 1000 "ctx" pageNoAudio = Except.error NONE_SUBSCRIPT_ERROR ∧
    setPlayedSeconds [] "episodes/e1" 0 1000 "ctx" pageNoAudio = Except.error NONE_SUBSCRIPT_ERROR ∧
    getMediaURI [] "episodes/e1" pageNoAudio (fun s => s) = Except.error NONE_SUBSCRIPT_ERROR :=
  ⟨rfl, rfl, rfl, rfl⟩
